import Mathlib

/-!
Verification of the SMARD data-acquisition core (`smard_data.api.download_smard_data`)
and the pipeline skip-check (`datapipe.get_output_files` / `check_outputs`).

The acquisition module itself (`src/smard_data/api.py`) is not part of the
checked-in sources; only its tests (`tests/test_api.py`) and callers
(`jobs/download_raw_data.py`, `datapipe.py`) are.  The definitions below for
the index fetcher, block fetcher, series assembler and orchestrator are
therefore modelled from the specification (sections 4.1-4.4, 6, 7), with the
error-message texts taken from the assertions in `tests/test_api.py`.

The network is modelled as explicit data: the index endpoint's response and a
function from block-start timestamps to block responses are arguments of the
orchestrator.  Epoch-millisecond integers are `Int`; the "instant" type the
fetchers convert to is a wrapper `Instant` around epoch milliseconds.
Observation values are carried opaquely (never computed with), so the
floating-point payload is modelled by an integer carrier.
-/

namespace SmardData

/-- An instant, as converted from the API's epoch-millisecond integers. -/
structure Instant where
  epochMs : Int
deriving DecidableEq, Repr

/-- Conversion of an epoch-millisecond integer to the instant type
(`pd.to_datetime(ms, unit="ms")` in the source's terms). -/
def Instant.ofEpochMs (ms : Int) : Instant := ⟨ms⟩

/-- Carrier for observation values.  The acquisition code only carries values
through (null preserved as `none`), never computes with them, so an integer
carrier stands in for the floating-point payload. -/
abbrev Value := Int

/-- Modelled from the spec: an Observation is a pair of (timestamp: instant,
value: floating-point or null). -/
structure Obs where
  timestamp : Instant
  value : Option Value
deriving DecidableEq, Repr

/-- An HTTP response: a status code and a parsed body.  Non-200 statuses are
failures for both endpoints. -/
structure Response (α : Type) where
  status : Nat
  body : α
deriving DecidableEq, Repr

/-- Modelled from the spec: the assembled Series — a timestamp-indexed table
with a single value column named by the caller-supplied variable name; the
index is named "timestamp" (asserted by `test_download_smard_data_success`). -/
structure Series where
  columnName : String
  indexName : String
  rows : List Obs
deriving DecidableEq, Repr

/-- Modelled from the spec (section 7): the fatal error taxonomy of the
acquisition module.  In the source all of these surface as `RuntimeError`s
distinguished by message (see `tests/test_api.py`). -/
inductive SmardError where
  | indexFetchError (status : Nat)
  | emptyIndexError
  | noDataAfterStartError (startTime : Instant)
  | noUsableDataError
deriving DecidableEq, Repr

/-- Modelled from the spec: the error messages, as asserted by
`tests/test_api.py` ("Error fetching timestamps: 404", "No timestamps
available", "No data available after ..."). -/
def SmardError.message : SmardError → String
  | .indexFetchError status => "Error fetching timestamps: " ++ toString status
  | .emptyIndexError => "No timestamps available"
  | .noDataAfterStartError st => "No data available after " ++ toString st.epochMs
  | .noUsableDataError => "No usable data downloaded"

/-- Timestamp order on observations (the assembler sorts by timestamp). -/
def obsLe (a b : Obs) : Prop := a.timestamp.epochMs ≤ b.timestamp.epochMs

instance : DecidableRel obsLe := fun a b =>
  inferInstanceAs (Decidable (a.timestamp.epochMs ≤ b.timestamp.epochMs))

instance : IsTotal Obs obsLe :=
  ⟨fun a b => Int.le_total a.timestamp.epochMs b.timestamp.epochMs⟩

instance : IsTrans Obs obsLe :=
  ⟨fun _ _ _ hab hbc => Int.le_trans hab hbc⟩

/-- Drop rows whose timestamp was already seen, keeping the first occurrence
(`df[~df.index.duplicated(keep="first")]` over a stably sorted frame). -/
def dropDupTimestamps (seen : List Instant) : List Obs → List Obs
  | [] => []
  | o :: rest =>
    if o.timestamp ∈ seen then dropDupTimestamps seen rest
    else o :: dropDupTimestamps (o.timestamp :: seen) rest

/-- Modelled from the spec (section 4.3): the Series Assembler.  Concatenates
the observations of the successful blocks (a failed block is `none` and
contributes nothing), stably sorts by timestamp ascending, deduplicates on
timestamp keeping the first occurrence, and names the single value column with
the caller-supplied variable name. -/
def assemble_series (results : List (Option (List Obs))) (variableName : String) : Series :=
  let allObs := (results.filterMap id).flatten
  let sorted := List.insertionSort obsLe allObs
  { columnName := variableName, indexName := "timestamp", rows := dropDupTimestamps [] sorted }

/-- Parse one raw payload pair `[epoch_ms, value_or_null]` into an
Observation: the timestamp is converted to the instant type, null stays
null. -/
def parse_obs (p : Int × Option Value) : Obs :=
  { timestamp := Instant.ofEpochMs p.1, value := p.2 }

/-- Modelled from the spec (section 4.2): the Block Fetcher.  On non-success
status it reports an explicit failure marker (`none`), not an exception; on
success it parses the `series` payload. -/
def fetch_block (resp : Response (List (Int × Option Value))) : Option (List Obs) :=
  if resp.status = 200 then some (resp.body.map parse_obs) else none

/-- Modelled from the spec (sections 4.1 and 6): the Timestamp Index Fetcher.
Non-success status is fatal (`IndexFetchError` carrying the status); a
well-formed response with zero timestamps is fatal (`EmptyIndexError`); if a
start time is supplied, index timestamps strictly before it are dropped, and
if that empties the set the fetch fails with `NoDataAfterStartError` naming
the start time. -/
def fetch_timestamps (resp : Response (List Int)) (startTime : Option Instant) :
    Except SmardError (List Int) :=
  if resp.status ≠ 200 then
    Except.error (SmardError.indexFetchError resp.status)
  else if resp.body = [] then
    Except.error SmardError.emptyIndexError
  else
    match startTime with
    | none => Except.ok resp.body
    | some st =>
      let kept := resp.body.filter (fun t => st.epochMs ≤ t)
      if kept = [] then Except.error (SmardError.noDataAfterStartError st)
      else Except.ok kept

/-- The per-block results obtained by fetching every surviving block-start
timestamp, in ascending index order. -/
def block_results (blockResp : Int → Response (List (Int × Option Value)))
    (ts : List Int) : List (Option (List Obs)) :=
  ts.map (fun t => fetch_block (blockResp t))

/-- Concatenation of the observations of the successful blocks. -/
def success_obs (results : List (Option (List Obs))) : List Obs :=
  (results.filterMap id).flatten

/-- The block-start timestamps for which a block request is issued: every
timestamp surviving the index fetch, none when the index fetch fails. -/
def fetched_blocks (indexResp : Response (List Int)) (startTime : Option Instant) : List Int :=
  match fetch_timestamps indexResp startTime with
  | Except.error _ => []
  | Except.ok ts => ts

/-- Modelled from the spec (section 4.4): the Acquisition Orchestrator
`download_smard_data`.  The network environment is passed as data: the index
endpoint's response and the block endpoint's response per block-start
timestamp (the region/resolution/variable ids only select this environment).
Index failures propagate unchanged; every surviving block is fetched; the
per-block results are assembled; an empty assembled Series is fatal
(`NoUsableDataError`). -/
def download_smard_data (indexResp : Response (List Int))
    (blockResp : Int → Response (List (Int × Option Value)))
    (variableName : String) (startTime : Option Instant) :
    Except SmardError Series :=
  match fetch_timestamps indexResp startTime with
  | Except.error e => Except.error e
  | Except.ok ts =>
    let s := assemble_series (block_results blockResp ts) variableName
    if s.rows = [] then Except.error SmardError.noUsableDataError
    else Except.ok s

/-- Boolean test for "this row sits at timestamp t". -/
def hasTs (t : Instant) (o : Obs) : Bool := decide (o.timestamp = t)

/-- Environment consumed by `datapipe.get_output_files`: the raw-data
directory (`ProjPaths.raw_data_path`) and the variable catalog
(`smard_data.config`, whose name-to-id tables and the quarter-hour resolution
identifier are opaque parameters here; the skip-check logic never inspects
them). -/
structure PipeEnv where
  rawDataPath : String
  quarterHourVal : String
  getName : Nat → String
  generationVariables : List Nat
  consumptionVariables : List Nat
  priceVariables : List Nat
  forecastVariables : List Nat
  allVariables : List Nat

/-- One expected parquet output path,
`paths.raw_data_path / f"{Variable.get_name(var)}_{Resolution.QUARTER_HOUR.value}.parquet"`. -/
def outputFile (env : PipeEnv) (v : Nat) : String :=
  env.rawDataPath ++ "/" ++ env.getName v ++ "_" ++ env.quarterHourVal ++ ".parquet"

/-- Embedding of `datapipe.get_output_files`: expected output files for a job,
with an empty list for any unrecognized job name. -/
def get_output_files (env : PipeEnv) (jobName : String) : List String :=
  if jobName = "download-generation" then
    env.generationVariables.map (outputFile env)
  else if jobName = "download-consumption" then
    env.consumptionVariables.map (outputFile env)
  else if jobName = "download-prices" then
    env.priceVariables.map (outputFile env)
  else if jobName = "download-forecasts" then
    env.forecastVariables.map (outputFile env)
  else if jobName = "download-all" then
    env.allVariables.map (outputFile env)
  else []

/-- Embedding of `datapipe.check_outputs`: all expected output files of the
job exist, with file existence supplied as an oracle. -/
def check_outputs (fileExists : String → Bool) (env : PipeEnv) (jobName : String) : Bool :=
  (get_output_files env jobName).all fileExists

/-- Sample network environment: the block at timestamp 0 returns one
observation, the block at timestamp 1 fails with HTTP 500, the block at
timestamp 2 returns one observation. -/
def sampleBlockResponses : Int → Response (List (Int × Option Value)) := fun t =>
  if t = 0 then ⟨200, [(1, some 10)]⟩
  else if t = 1 then ⟨500, []⟩
  else ⟨200, [(2, some 20)]⟩

/-- Sample per-block results: two successful blocks reporting an observation
at the identical timestamp with values 10 and 20 respectively. -/
def overlappingBlocks : List (Option (List Obs)) :=
  [some [⟨⟨100⟩, some 10⟩], some [⟨⟨100⟩, some 20⟩]]

theorem dropDup_sublist (seen : List Instant) (l : List Obs) :
    List.Sublist (dropDupTimestamps seen l) l := by
  induction l generalizing seen with
  | nil => exact List.Sublist.refl _
  | cons o rest ih =>
    simp only [dropDupTimestamps]
    by_cases h : o.timestamp ∈ seen
    · rw [if_pos h]
      exact (ih seen).trans (List.sublist_cons_self o rest)
    · rw [if_neg h]
      exact (ih _).cons₂ o

theorem mem_dropDup_not_seen (seen : List Instant) (l : List Obs) :
    ∀ o ∈ dropDupTimestamps seen l, o.timestamp ∉ seen := by
  induction l generalizing seen with
  | nil => intro o ho; cases ho
  | cons o rest ih =>
    simp only [dropDupTimestamps]
    by_cases h : o.timestamp ∈ seen
    · rw [if_pos h]; exact ih seen
    · rw [if_neg h]
      intro x hx
      rcases List.mem_cons.mp hx with rfl | hx
      · exact h
      · intro hxseen
        exact ih _ x hx (List.mem_cons_of_mem _ hxseen)

theorem dropDup_pairwise_ne (seen : List Instant) (l : List Obs) :
    (dropDupTimestamps seen l).Pairwise (fun a b => a.timestamp ≠ b.timestamp) := by
  induction l generalizing seen with
  | nil => exact List.Pairwise.nil
  | cons o rest ih =>
    simp only [dropDupTimestamps]
    by_cases h : o.timestamp ∈ seen
    · rw [if_pos h]; exact ih seen
    · rw [if_neg h]
      refine List.Pairwise.cons ?_ (ih _)
      intro b hb heq
      exact mem_dropDup_not_seen _ _ b hb (heq ▸ List.mem_cons_self _ _)

theorem dropDup_eq_self (seen : List Instant) (l : List Obs)
    (hseen : ∀ o ∈ l, o.timestamp ∉ seen)
    (hne : l.Pairwise fun a b => a.timestamp ≠ b.timestamp) :
    dropDupTimestamps seen l = l := by
  induction l generalizing seen with
  | nil => rfl
  | cons o rest ih =>
    simp only [dropDupTimestamps]
    rw [if_neg (hseen o (List.mem_cons_self o rest))]
    rcases List.pairwise_cons.mp hne with ⟨hhead, htail⟩
    congr 1
    refine ih _ ?_ htail
    intro x hx hmem
    rcases List.mem_cons.mp hmem with hxo | hxseen
    · exact hhead x hx hxo.symm
    · exact hseen x (List.mem_cons_of_mem _ hx) hxseen

theorem find?_dropDup (t : Instant) (seen : List Instant) (l : List Obs)
    (hts : t ∉ seen) :
    (dropDupTimestamps seen l).find? (hasTs t) = l.find? (hasTs t) := by
  induction l generalizing seen with
  | nil => rfl
  | cons o rest ih =>
    simp only [dropDupTimestamps]
    by_cases hseen : o.timestamp ∈ seen
    · have hpo : hasTs t o = false := by
        simp only [hasTs, decide_eq_false_iff_not]
        intro h; exact hts (h ▸ hseen)
      rw [if_pos hseen, ih seen hts, List.find?_cons_of_neg _ (by simp [hpo])]
    · rw [if_neg hseen]
      cases hpo : hasTs t o with
      | true =>
        have : o.timestamp = t := of_decide_eq_true hpo
        rw [List.find?_cons_of_pos _ hpo, List.find?_cons_of_pos _ hpo]
      | false =>
        have hone : o.timestamp ≠ t := by simpa [hasTs] using hpo
        have hnt : t ∉ o.timestamp :: seen := by
          intro h
          rcases List.mem_cons.mp h with h | h
          · exact hone h.symm
          · exact hts h
        rw [List.find?_cons_of_neg _ (by simp [hpo]), List.find?_cons_of_neg _ (by simp [hpo]),
          ih _ hnt]

theorem find?_orderedInsert_of_hasTs (t : Instant) (a : Obs) (u : List Obs)
    (ha : hasTs t a = true) :
    (List.orderedInsert obsLe a u).find? (hasTs t) = some a := by
  induction u with
  | nil => simp [List.orderedInsert, List.find?_cons_of_pos _ ha]
  | cons b u ih =>
    by_cases hab : obsLe a b
    · rw [List.orderedInsert_of_le _ _ hab, List.find?_cons_of_pos _ ha]
    · have hat : a.timestamp = t := of_decide_eq_true ha
      have hpb : hasTs t b = false := by
        simp only [hasTs, decide_eq_false_iff_not]
        intro hbt
        exact hab (by simp [obsLe, hat, hbt])
      simp only [List.orderedInsert, if_neg hab]
      rw [List.find?_cons_of_neg _ (by simp [hpb]), ih]

theorem find?_orderedInsert_of_not_hasTs (t : Instant) (a : Obs) (u : List Obs)
    (ha : hasTs t a = false) :
    (List.orderedInsert obsLe a u).find? (hasTs t) = u.find? (hasTs t) := by
  induction u with
  | nil =>
    simp only [List.orderedInsert]
    rw [List.find?_cons_of_neg _ (by simp [ha])]
  | cons b u ih =>
    by_cases hab : obsLe a b
    · rw [List.orderedInsert_of_le _ _ hab, List.find?_cons_of_neg _ (by simp [ha])]
    · simp only [List.orderedInsert, if_neg hab]
      cases hpb : hasTs t b with
      | true =>
        rw [List.find?_cons_of_pos _ hpb, List.find?_cons_of_pos _ hpb]
      | false =>
        rw [List.find?_cons_of_neg _ (by simp [hpb]), List.find?_cons_of_neg _ (by simp [hpb]), ih]

theorem find?_insertionSort (t : Instant) (l : List Obs) :
    (List.insertionSort obsLe l).find? (hasTs t) = l.find? (hasTs t) := by
  induction l with
  | nil => rfl
  | cons a l ih =>
    simp only [List.insertionSort]
    cases hpa : hasTs t a with
    | true =>
      rw [find?_orderedInsert_of_hasTs _ _ _ hpa, List.find?_cons_of_pos _ hpa]
    | false =>
      rw [find?_orderedInsert_of_not_hasTs _ _ _ hpa, ih,
        List.find?_cons_of_neg _ (by simp [hpa])]

theorem filter_hasTs_eq_single (t : Instant) : ∀ (l : List Obs) (o : Obs),
    l.Pairwise (fun a b => a.timestamp ≠ b.timestamp) →
    l.find? (hasTs t) = some o → l.filter (hasTs t) = [o] := by
  intro l
  induction l with
  | nil => intro o _ h; simp [List.find?] at h
  | cons a rest ih =>
    intro o hpw hfind
    rcases List.pairwise_cons.mp hpw with ⟨hne, hpw'⟩
    cases hpa : hasTs t a with
    | false =>
      rw [List.find?_cons_of_neg _ (by simp [hpa])] at hfind
      rw [List.filter_cons_of_neg (by simp [hpa])]
      exact ih o hpw' hfind
    | true =>
      rw [List.find?_cons_of_pos _ hpa] at hfind
      cases hfind
      rw [List.filter_cons_of_pos hpa]
      have hat : a.timestamp = t := of_decide_eq_true hpa
      have : rest.filter (hasTs t) = [] := by
        rw [List.filter_eq_nil_iff]
        intro x hx
        simp only [hasTs, decide_eq_true_eq]
        intro hxt
        exact hne x hx (hat.trans hxt.symm)
      rw [this]

theorem Instant.ext_epochMs {a b : Instant} (h : a.epochMs = b.epochMs) : a = b := by
  cases a; cases b; cases h; rfl

theorem assemble_rows_eq (results : List (Option (List Obs))) (name : String) :
    (assemble_series results name).rows
      = dropDupTimestamps [] (List.insertionSort obsLe (success_obs results)) := rfl

theorem assemble_rows_pairwise_lt (results : List (Option (List Obs))) (name : String) :
    (assemble_series results name).rows.Pairwise
      (fun a b => a.timestamp.epochMs < b.timestamp.epochMs) := by
  have hsorted : (List.insertionSort obsLe (success_obs results)).Pairwise obsLe :=
    List.sorted_insertionSort obsLe _
  have hsub : List.Sublist (assemble_series results name).rows
      (List.insertionSort obsLe (success_obs results)) := by
    rw [assemble_rows_eq]; exact dropDup_sublist _ _
  have hle := List.Pairwise.sublist hsub hsorted
  have hne : (assemble_series results name).rows.Pairwise
      (fun a b => a.timestamp ≠ b.timestamp) := by
    rw [assemble_rows_eq]; exact dropDup_pairwise_ne _ _
  exact (hle.and hne).imp fun h =>
    lt_of_le_of_ne h.1 fun he => h.2 (Instant.ext_epochMs he)

theorem assemble_find?_eq (results : List (Option (List Obs))) (name : String) (t : Instant) :
    (assemble_series results name).rows.find? (hasTs t)
      = (success_obs results).find? (hasTs t) := by
  rw [assemble_rows_eq, find?_dropDup t [] _ (by simp), find?_insertionSort]

theorem assemble_filter_hasTs (results : List (Option (List Obs))) (name : String)
    (t : Instant) (o : Obs) (h : (success_obs results).find? (hasTs t) = some o) :
    (assemble_series results name).rows.filter (hasTs t) = [o] := by
  apply filter_hasTs_eq_single t _ o
  · rw [assemble_rows_eq]; exact dropDup_pairwise_ne _ _
  · rw [assemble_find?_eq]; exact h

theorem assemble_rows_perm (results : List (Option (List Obs))) (name : String)
    (hnd : (success_obs results).Pairwise fun a b => a.timestamp ≠ b.timestamp) :
    List.Perm (assemble_series results name).rows (success_obs results) := by
  have hperm : List.Perm (List.insertionSort obsLe (success_obs results)) (success_obs results) :=
    List.perm_insertionSort obsLe _
  have hne : (List.insertionSort obsLe (success_obs results)).Pairwise
      (fun a b => a.timestamp ≠ b.timestamp) :=
    (List.Perm.pairwise_iff (fun {_ _} h => Ne.symm h) hperm).mpr hnd
  rw [assemble_rows_eq, dropDup_eq_self _ _ (by simp) hne]
  exact hperm

theorem assemble_ignores_failures (results : List (Option (List Obs))) (name : String) :
    assemble_series results name = assemble_series ((results.filterMap id).map some) name := by
  simp only [assemble_series]
  rw [show ((results.filterMap id).map some).filterMap id = results.filterMap id by
    simp [List.filterMap_map, Function.comp]]

theorem fetch_timestamps_non200 (resp : Response (List Int)) (st : Option Instant)
    (h : resp.status ≠ 200) :
    fetch_timestamps resp st = Except.error (SmardError.indexFetchError resp.status) := by
  simp only [fetch_timestamps]
  rw [if_pos h]

theorem fetch_timestamps_empty (st : Option Instant) :
    fetch_timestamps ⟨200, ([] : List Int)⟩ st = Except.error SmardError.emptyIndexError := rfl

theorem fetch_timestamps_200_none (body : List Int) (hb : body ≠ []) :
    fetch_timestamps ⟨200, body⟩ none = Except.ok body := by
  simp only [fetch_timestamps]
  rw [if_neg (by simp), if_neg hb]

theorem fetch_timestamps_200_some (body : List Int) (hb : body ≠ []) (st : Instant) :
    fetch_timestamps ⟨200, body⟩ (some st)
      = (if body.filter (fun t => st.epochMs ≤ t) = []
         then Except.error (SmardError.noDataAfterStartError st)
         else Except.ok (body.filter (fun t => st.epochMs ≤ t))) := by
  simp only [fetch_timestamps]
  rw [if_neg (by simp), if_neg hb]

theorem download_eq_error_of_fetch_error (idx : Response (List Int))
    (br : Int → Response (List (Int × Option Value))) (name : String)
    (st : Option Instant) (e : SmardError)
    (h : fetch_timestamps idx st = Except.error e) :
    download_smard_data idx br name st = Except.error e := by
  simp only [download_smard_data]
  rw [h]

theorem download_eq_of_fetch_ok (idx : Response (List Int))
    (br : Int → Response (List (Int × Option Value))) (name : String)
    (st : Option Instant) (ts : List Int)
    (h : fetch_timestamps idx st = Except.ok ts) :
    download_smard_data idx br name st
      = (if (assemble_series (block_results br ts) name).rows = []
         then Except.error SmardError.noUsableDataError
         else Except.ok (assemble_series (block_results br ts) name)) := by
  simp only [download_smard_data]
  rw [h]

theorem download_eq_ok_iff (idx : Response (List Int))
    (br : Int → Response (List (Int × Option Value))) (name : String)
    (st : Option Instant) (s : Series) :
    download_smard_data idx br name st = Except.ok s ↔
      ∃ ts, fetch_timestamps idx st = Except.ok ts ∧
        s = assemble_series (block_results br ts) name ∧ s.rows ≠ [] := by
  cases h : fetch_timestamps idx st with
  | error e =>
    rw [download_eq_error_of_fetch_error idx br name st e h]
    simp
  | ok ts =>
    rw [download_eq_of_fetch_ok idx br name st ts h]
    by_cases hrows : (assemble_series (block_results br ts) name).rows = []
    · rw [if_pos hrows]
      constructor
      · intro hcontra; cases hcontra
      · rintro ⟨ts', hts', rfl, hne⟩
        injection hts' with h''
        subst h''
        exact absurd hrows hne
    · rw [if_neg hrows]
      constructor
      · intro hok
        injection hok with h'
        exact ⟨ts, rfl, h'.symm, h' ▸ hrows⟩
      · rintro ⟨ts', hts', rfl, hne⟩
        injection hts' with h''
        subst h''
        rfl

theorem fetched_blocks_of_error (idx : Response (List Int)) (st : Option Instant)
    (e : SmardError) (h : fetch_timestamps idx st = Except.error e) :
    fetched_blocks idx st = [] := by
  simp only [fetched_blocks]
  rw [h]

theorem fetched_blocks_of_ok (idx : Response (List Int)) (st : Option Instant)
    (ts : List Int) (h : fetch_timestamps idx st = Except.ok ts) :
    fetched_blocks idx st = ts := by
  simp only [fetched_blocks]
  rw [h]

/-- C4: whenever the index endpoint responds with a non-success status,
`download_smard_data` fails with `IndexFetchError` whose message carries the
literal status code, and performs zero block-fetch calls before failing. -/
theorem download_index_fetch_error (idx : Response (List Int))
    (br : Int → Response (List (Int × Option Value))) (name : String)
    (st : Option Instant) (h : idx.status ≠ 200) :
    download_smard_data idx br name st
        = Except.error (SmardError.indexFetchError idx.status)
      ∧ fetched_blocks idx st = []
      ∧ ∃ pre post, (SmardError.indexFetchError idx.status).message
          = pre ++ toString idx.status ++ post := by
  have hf := fetch_timestamps_non200 idx st h
  exact ⟨download_eq_error_of_fetch_error idx br name st _ hf,
    fetched_blocks_of_error idx st _ hf,
    "Error fetching timestamps: ", "", by simp [SmardError.message]⟩

/-- Witness for C4 at a concrete HTTP 404 index response
(`toString (404 : Nat) = "404"`, so the message contains "404"). -/
theorem download_index_fetch_error_witness :
    download_smard_data ⟨404, [1640995200000]⟩ (fun _ => ⟨200, [(5, some 7)]⟩)
        "solar" none
        = Except.error (SmardError.indexFetchError 404)
      ∧ fetched_blocks ⟨404, [1640995200000]⟩ none = []
      ∧ ∃ pre post, (SmardError.indexFetchError 404).message
          = pre ++ toString (404 : Nat) ++ post :=
  download_index_fetch_error ⟨404, [1640995200000]⟩ (fun _ => ⟨200, [(5, some 7)]⟩)
    "solar" none (by decide)

/-- C5: a well-formed index response with zero timestamps always fails with
`EmptyIndexError` (the spec's `NoDataError`), never returning an empty
Series — for any block responses, variable name, and optional start time. -/
theorem download_empty_index_error
    (br : Int → Response (List (Int × Option Value))) (name : String)
    (st : Option Instant) :
    download_smard_data ⟨200, ([] : List Int)⟩ br name st
      = Except.error SmardError.emptyIndexError :=
  download_eq_error_of_fetch_error _ br name st _ (fetch_timestamps_empty st)

/-- C7: when the start-time filter empties the index, `download_smard_data`
fails with `NoDataAfterStartError` whose message names the start time, and
performs zero block-fetch calls. -/
theorem download_start_time_no_data (body : List Int)
    (br : Int → Response (List (Int × Option Value))) (name : String)
    (st : Instant) (hb : body ≠ [])
    (hemp : body.filter (fun t => st.epochMs ≤ t) = []) :
    download_smard_data ⟨200, body⟩ br name (some st)
        = Except.error (SmardError.noDataAfterStartError st)
      ∧ fetched_blocks ⟨200, body⟩ (some st) = []
      ∧ ∃ pre post, (SmardError.noDataAfterStartError st).message
          = pre ++ toString st.epochMs ++ post := by
  have hf : fetch_timestamps ⟨200, body⟩ (some st)
      = Except.error (SmardError.noDataAfterStartError st) := by
    rw [fetch_timestamps_200_some body hb st, if_pos hemp]
  exact ⟨download_eq_error_of_fetch_error _ br name _ _ hf,
    fetched_blocks_of_error _ _ _ hf,
    "No data available after ", "", by simp [SmardError.message]⟩

/-- Witness for C7: a start time strictly after every index timestamp. -/
theorem download_start_time_no_data_witness :
    download_smard_data ⟨200, [0, 86400000]⟩ (fun _ => ⟨200, [(5, some 7)]⟩)
        "solar" (some ⟨99999999999⟩)
        = Except.error (SmardError.noDataAfterStartError ⟨99999999999⟩)
      ∧ fetched_blocks ⟨200, [0, 86400000]⟩ (some ⟨99999999999⟩) = []
      ∧ ∃ pre post, (SmardError.noDataAfterStartError ⟨99999999999⟩).message
          = pre ++ toString (99999999999 : Int) ++ post :=
  download_start_time_no_data [0, 86400000] (fun _ => ⟨200, [(5, some 7)]⟩)
    "solar" ⟨99999999999⟩ (by decide) (by decide)

/-- C8: if the assembled Series is empty after all blocks have been attempted,
`download_smard_data` fails with `NoUsableDataError`; a returned Series is
never empty. -/
theorem download_no_usable_data (idx : Response (List Int))
    (br : Int → Response (List (Int × Option Value))) (name : String)
    (st : Option Instant) :
    (∀ ts, fetch_timestamps idx st = Except.ok ts →
        (assemble_series (block_results br ts) name).rows = [] →
        download_smard_data idx br name st
          = Except.error SmardError.noUsableDataError)
      ∧ ∀ s, download_smard_data idx br name st = Except.ok s → s.rows ≠ [] := by
  constructor
  · intro ts hts hempty
    rw [download_eq_of_fetch_ok idx br name st ts hts, if_pos hempty]
  · intro s hs
    rcases (download_eq_ok_iff idx br name st s).mp hs with ⟨ts, _, _, hne⟩
    exact hne

/-- Witness for C8: a single block whose request fails with HTTP 500, leaving
the assembled Series empty. -/
theorem download_no_usable_data_witness :
    download_smard_data ⟨200, [(5 : Int)]⟩ (fun _ => ⟨500, []⟩) "solar" none
      = Except.error SmardError.noUsableDataError :=
  (download_no_usable_data ⟨200, [(5 : Int)]⟩ (fun _ => ⟨500, []⟩) "solar" none).1
    [(5 : Int)] rfl rfl

/-- C10: for every job name other than the five recognized ones,
`get_output_files` returns the empty list, so `check_outputs` is vacuously
true for every unrecognized job name. -/
theorem get_output_files_unknown_job (env : PipeEnv) (fileExists : String → Bool)
    (jobName : String)
    (h : jobName ∉ ["download-generation", "download-consumption",
      "download-prices", "download-forecasts", "download-all"]) :
    get_output_files env jobName = []
      ∧ check_outputs fileExists env jobName = true := by
  simp only [List.mem_cons, List.not_mem_nil, or_false, not_or] at h
  obtain ⟨h1, h2, h3, h4, h5⟩ := h
  have hg : get_output_files env jobName = [] := by
    simp only [get_output_files]
    rw [if_neg h1, if_neg h2, if_neg h3, if_neg h4, if_neg h5]
  exact ⟨hg, by simp [check_outputs, hg]⟩

/-- Witness for C10 at the unrecognized job name "process-data". -/
theorem get_output_files_unknown_job_witness :
    get_output_files ⟨"data/raw_data", "quarterhour", fun _ => "v", [], [], [], [], []⟩
        "process-data" = []
      ∧ check_outputs (fun _ => false)
        ⟨"data/raw_data", "quarterhour", fun _ => "v", [], [], [], [], []⟩
        "process-data" = true :=
  get_output_files_unknown_job
    ⟨"data/raw_data", "quarterhour", fun _ => "v", [], [], [], [], []⟩
    (fun _ => false) "process-data" (by decide)

theorem fetch_block_eq_some (resp : Response (List (Int × Option Value)))
    (l : List Obs) (h : fetch_block resp = some l) :
    resp.status = 200 ∧ l = resp.body.map parse_obs := by
  by_cases hs : resp.status = 200
  · refine ⟨hs, ?_⟩
    simp only [fetch_block, if_pos hs] at h
    injection h with h'
    exact h'.symm
  · simp only [fetch_block, if_neg hs] at h
    cases h

/-- C1: partial-failure tolerance — with the index fetch succeeding and a
nonempty assembled result, `download_smard_data` returns the assembled
Series; every surviving block is fetched regardless of individual failures;
the assembled Series is the same as if only the successful blocks had been
passed in (failed blocks contribute no rows); and when the successful
observations carry distinct timestamps the assembled rows are exactly their
union (a permutation of their concatenation), independent of which blocks
failed. -/
theorem download_partial_failure_union (idx : Response (List Int))
    (br : Int → Response (List (Int × Option Value))) (name : String)
    (st : Option Instant) (ts : List Int)
    (hts : fetch_timestamps idx st = Except.ok ts)
    (hne : (assemble_series (block_results br ts) name).rows ≠ []) :
    download_smard_data idx br name st
        = Except.ok (assemble_series (block_results br ts) name)
      ∧ fetched_blocks idx st = ts
      ∧ assemble_series (block_results br ts) name
          = assemble_series (((block_results br ts).filterMap id).map some) name
      ∧ ((success_obs (block_results br ts)).Pairwise
            (fun a b => a.timestamp ≠ b.timestamp) →
          List.Perm (assemble_series (block_results br ts) name).rows
            (success_obs (block_results br ts))) := by
  refine ⟨?_, fetched_blocks_of_ok idx st ts hts, assemble_ignores_failures _ _,
    assemble_rows_perm _ _⟩
  rw [download_eq_of_fetch_ok idx br name st ts hts, if_neg hne]

/-- Witness for C1: three blocks of which the middle one fails with HTTP 500;
the other two contribute their observations. -/
theorem download_partial_failure_union_witness :
    download_smard_data ⟨200, [0, 1, 2]⟩ sampleBlockResponses "solar" none
        = Except.ok (assemble_series (block_results sampleBlockResponses [0, 1, 2]) "solar")
      ∧ fetched_blocks ⟨200, [0, 1, 2]⟩ none = [0, 1, 2]
      ∧ assemble_series (block_results sampleBlockResponses [0, 1, 2]) "solar"
          = assemble_series
              (((block_results sampleBlockResponses [0, 1, 2]).filterMap id).map some) "solar"
      ∧ List.Perm
          (assemble_series (block_results sampleBlockResponses [0, 1, 2]) "solar").rows
          (success_obs (block_results sampleBlockResponses [0, 1, 2])) := by
  have h := download_partial_failure_union ⟨200, [0, 1, 2]⟩ sampleBlockResponses "solar"
    none [0, 1, 2] rfl (by decide)
  exact ⟨h.1, h.2.1, h.2.2.1, h.2.2.2 (by decide)⟩

/-- C2: dedup invariant — when the concatenated observations of the
successful blocks contain two or more rows at the same timestamp, the
assembled Series has exactly one row at that timestamp, and its value is the
first-encountered one in block-fetch order (`List.find?` over the
concatenation). -/
theorem assemble_dedup_first_wins (results : List (Option (List Obs)))
    (name : String) (t : Instant)
    (hdup : 2 ≤ ((success_obs results).filter (hasTs t)).length) :
    ∃ o, (success_obs results).find? (hasTs t) = some o
      ∧ (assemble_series results name).rows.filter (hasTs t) = [o] := by
  have hpos : 0 < ((success_obs results).filter (hasTs t)).length :=
    lt_of_lt_of_le (by norm_num) hdup
  have hex : ∃ x ∈ success_obs results, hasTs t x = true := by
    rcases List.exists_mem_of_length_pos hpos with ⟨x, hx⟩
    rcases List.mem_filter.mp hx with ⟨hmem, hprop⟩
    exact ⟨x, hmem, hprop⟩
  have hsome : ((success_obs results).find? (hasTs t)).isSome :=
    List.find?_isSome.mpr hex
  rcases Option.isSome_iff_exists.mp hsome with ⟨o, ho⟩
  exact ⟨o, ho, assemble_filter_hasTs results name t o ho⟩

/-- Witness for C2: two blocks reporting values 10 and 20 at the identical
timestamp (block order first-10 then-20); the assembler keeps a single row,
the first-encountered one (value 10, as `List.find?` evaluates). -/
theorem assemble_dedup_first_wins_witness :
    ∃ o, (success_obs overlappingBlocks).find? (hasTs ⟨100⟩) = some o
      ∧ (assemble_series overlappingBlocks "solar").rows.filter (hasTs ⟨100⟩) = [o] :=
  assemble_dedup_first_wins overlappingBlocks "solar" ⟨100⟩ (by decide)

/-- C3: sort invariant — the timestamps of the Series produced by the
assembler, and hence of any Series returned by `download_smard_data`, are
strictly ascending regardless of fetch order. -/
theorem download_sorted_strict_asc :
    (∀ (results : List (Option (List Obs))) (name : String),
        (assemble_series results name).rows.Pairwise
          fun a b => a.timestamp.epochMs < b.timestamp.epochMs)
      ∧ ∀ (idx : Response (List Int)) (br : Int → Response (List (Int × Option Value)))
          (name : String) (st : Option Instant) (s : Series),
          download_smard_data idx br name st = Except.ok s →
          s.rows.Pairwise fun a b => a.timestamp.epochMs < b.timestamp.epochMs := by
  refine ⟨assemble_rows_pairwise_lt, ?_⟩
  intro idx br name st s hs
  rcases (download_eq_ok_iff idx br name st s).mp hs with ⟨ts, _, rfl, _⟩
  exact assemble_rows_pairwise_lt _ _

/-- Witness for C3: a block whose payload arrives out of order is returned
sorted strictly ascending. -/
theorem download_sorted_strict_asc_witness :
    (Series.mk "x" "timestamp" [⟨⟨3⟩, some 1⟩, ⟨⟨5⟩, some 7⟩]).rows.Pairwise
      (fun a b => a.timestamp.epochMs < b.timestamp.epochMs) :=
  download_sorted_strict_asc.2 ⟨200, [0]⟩ (fun _ => ⟨200, [(5, some 7), (3, some 1)]⟩)
    "x" none (Series.mk "x" "timestamp" [⟨⟨3⟩, some 1⟩, ⟨⟨5⟩, some 7⟩]) rfl

/-- C6: the start-time filter keeps exactly the index timestamps at or after
the start time; it is a no-op when the start time is at or before every index
timestamp; and it applies to the index before any block is fetched — the
blocks fetched are exactly the filtered index timestamps and the returned
Series is assembled from those blocks' observations with no filtering
afterwards. -/
theorem download_start_time_filter (body : List Int)
    (br : Int → Response (List (Int × Option Value))) (name : String)
    (st : Instant) (hb : body ≠ []) :
    (∀ t, t ∈ body.filter (fun t => st.epochMs ≤ t) ↔ t ∈ body ∧ st.epochMs ≤ t)
      ∧ ((∀ t ∈ body, st.epochMs ≤ t) →
          fetch_timestamps ⟨200, body⟩ (some st) = fetch_timestamps ⟨200, body⟩ none)
      ∧ (body.filter (fun t => st.epochMs ≤ t) ≠ [] →
          fetched_blocks ⟨200, body⟩ (some st) = body.filter (fun t => st.epochMs ≤ t)
          ∧ download_smard_data ⟨200, body⟩ br name (some st)
              = (if (assemble_series
                      (block_results br (body.filter (fun t => st.epochMs ≤ t))) name).rows = []
                 then Except.error SmardError.noUsableDataError
                 else Except.ok (assemble_series
                      (block_results br (body.filter (fun t => st.epochMs ≤ t))) name))) := by
  refine ⟨?_, ?_, ?_⟩
  · intro t
    rw [List.mem_filter]
    simp
  · intro hall
    have hfilter : body.filter (fun t => st.epochMs ≤ t) = body :=
      List.filter_eq_self.mpr fun t ht => decide_eq_true (hall t ht)
    rw [fetch_timestamps_200_some body hb st, hfilter, if_neg hb,
      fetch_timestamps_200_none body hb]
  · intro hne
    have hf : fetch_timestamps ⟨200, body⟩ (some st)
        = Except.ok (body.filter (fun t => st.epochMs ≤ t)) := by
      rw [fetch_timestamps_200_some body hb st, if_neg hne]
    exact ⟨fetched_blocks_of_ok _ _ _ hf, download_eq_of_fetch_ok _ br name _ _ hf⟩

/-- Witness for C6: start time 0 precedes both index timestamps, so the
filter keeps both and is a no-op. -/
theorem download_start_time_filter_witness :
    ((0 : Int) ∈ [(0 : Int), 86400000].filter (fun t => (0 : Int) ≤ t)
        ↔ (0 : Int) ∈ [(0 : Int), 86400000] ∧ (0 : Int) ≤ 0)
      ∧ fetch_timestamps ⟨200, [0, 86400000]⟩ (some ⟨0⟩)
          = fetch_timestamps ⟨200, [0, 86400000]⟩ none
      ∧ fetched_blocks ⟨200, [0, 86400000]⟩ (some ⟨0⟩)
          = [(0 : Int), 86400000].filter (fun t => (0 : Int) ≤ t) := by
  have h := download_start_time_filter [0, 86400000] (fun _ => ⟨200, []⟩) "x" ⟨0⟩
    (by decide)
  exact ⟨h.1 0, h.2.1 (by decide), (h.2.2 (by decide)).1⟩

/-- C9: every Series returned by `download_smard_data` has its single value
column named with the caller-supplied variable name and its index named
"timestamp", and every row originates from a successful fetched block's raw
`[epoch_ms, value_or_null]` payload, with the timestamp converted to the
instant type and the value (null included) preserved. -/
theorem download_output_shape (idx : Response (List Int))
    (br : Int → Response (List (Int × Option Value))) (name : String)
    (st : Option Instant) (s : Series)
    (h : download_smard_data idx br name st = Except.ok s) :
    s.columnName = name ∧ s.indexName = "timestamp"
      ∧ ∀ o ∈ s.rows, ∃ t ∈ fetched_blocks idx st,
          (br t).status = 200 ∧ ∃ p ∈ (br t).body,
            o.timestamp = Instant.ofEpochMs p.1 ∧ o.value = p.2 := by
  rcases (download_eq_ok_iff idx br name st s).mp h with ⟨ts, hts, rfl, _⟩
  refine ⟨rfl, rfl, ?_⟩
  intro o ho
  rw [fetched_blocks_of_ok idx st ts hts]
  rw [assemble_rows_eq] at ho
  have h1 : o ∈ List.insertionSort obsLe (success_obs (block_results br ts)) :=
    (dropDup_sublist _ _).subset ho
  have h2 : o ∈ success_obs (block_results br ts) :=
    (List.mem_insertionSort obsLe).mp h1
  simp only [success_obs] at h2
  rcases List.mem_flatten.mp h2 with ⟨lobs, hlobs, holobs⟩
  rcases List.mem_filterMap.mp hlobs with ⟨r, hr, hid⟩
  simp only [block_results] at hr
  rcases List.mem_map.mp hr with ⟨t, htts, hrt⟩
  have hfb : fetch_block (br t) = some lobs := by rw [hrt]; exact hid
  rcases fetch_block_eq_some _ _ hfb with ⟨hstat, hlobs_eq⟩
  rcases List.mem_map.mp (hlobs_eq ▸ holobs) with ⟨p, hp, hpo⟩
  refine ⟨t, htts, hstat, p, hp, ?_, ?_⟩
  · rw [← hpo]; rfl
  · rw [← hpo]; rfl

/-- Witness for C9 at a concrete successful download of one block. -/
theorem download_output_shape_witness :
    (Series.mk "solar" "timestamp" [⟨⟨5⟩, some 7⟩]).columnName = "solar"
      ∧ (Series.mk "solar" "timestamp" [⟨⟨5⟩, some 7⟩]).indexName = "timestamp" :=
  ⟨(download_output_shape ⟨200, [0]⟩ (fun _ => ⟨200, [(5, some 7)]⟩) "solar" none
      (Series.mk "solar" "timestamp" [⟨⟨5⟩, some 7⟩]) rfl).1,
   (download_output_shape ⟨200, [0]⟩ (fun _ => ⟨200, [(5, some 7)]⟩) "solar" none
      (Series.mk "solar" "timestamp" [⟨⟨5⟩, some 7⟩]) rfl).2.1⟩

end SmardData
